import Mathlib

/-!
# Verification of the stub-server response resolution engine

Shallow embedding of `src/responseManager.js` (class `ResponseManager`) and of
the delay combination performed by the server request handler.  JSON documents
are modelled by the inductive `Json` (numbers as `Int`; the fixtures in this
repository only use integer numbers), file contents by their parse outcome
(`FileData`), and the filesystem by a finite listing of file paths and
directory paths.  Node's string-based path handling (`path.join`,
`path.resolve`, `String.prototype.startsWith`) is modelled on character lists
so that every definition is executable.
-/

namespace StubServer

/-- JSON values as produced by `JSON.parse`.  Object fields keep their textual
order, as `Object.entries` does. -/
inductive Json where
  | null : Json
  | bool : Bool → Json
  | num : Int → Json
  | str : String → Json
  | arr : List Json → Json
  | obj : List (String × Json) → Json

/-- JavaScript truthiness of a parsed JSON value (`if (response) ...`):
`null`, `false`, `0` and the empty string are falsy; every object and array
is truthy. -/
def jsTruthy : Json → Bool
  | Json.null => false
  | Json.bool b => b
  | Json.num n => n != 0
  | Json.str s => s != ""
  | Json.arr _ => true
  | Json.obj _ => true

mutual

/-- JavaScript `String(value)` on a parsed JSON value: arrays print as their
elements joined with commas (`Array.prototype.toString`), plain objects as
`[object Object]`. -/
def jsToString : Json → String
  | Json.null => "null"
  | Json.bool b => if b then "true" else "false"
  | Json.num n => toString n
  | Json.str s => s
  | Json.arr items => joinElems items
  | Json.obj _ => "[object Object]"

/-- `Array.prototype.join(",")`: `null` elements contribute the empty
string. -/
def joinElems : List Json → String
  | [] => ""
  | [Json.null] => ""
  | [x] => jsToString x
  | Json.null :: x :: xs => "," ++ joinElems (x :: xs)
  | x :: y :: xs => jsToString x ++ "," ++ joinElems (y :: xs)

end

/-! ## Node path handling

`path.join` concatenates its arguments with `/` and normalizes the result;
`path.resolve` on an already-absolute argument is normalization.  We model
both on character lists.  All call sites in the source join non-empty
fragments, which is the case this model covers. -/

/-- Split a character list at every occurrence of a separator character
(the behaviour of `String.prototype.split` with a one-character
separator). -/
def splitChar (sep : Char) : List Char → List (List Char)
  | [] => [[]]
  | c :: cs =>
    match splitChar sep cs with
    | [] => if c = sep then [[], []] else [[c]]
    | seg :: rest => if c = sep then [] :: seg :: rest else (c :: seg) :: rest

/-- Resolution of `.` and `..` segments, as `path.normalize` does: `..` pops
the previous segment; above the start it is dropped for absolute paths and
kept for relative ones. -/
def normSegs (abs : Bool) (stack : List (List Char)) : List (List Char) → List (List Char)
  | [] => stack.reverse
  | seg :: rest =>
    if seg = [] ∨ seg = ['.'] then normSegs abs stack rest
    else if seg = ['.', '.'] then
      match stack with
      | [] => normSegs abs (if abs then [] else [['.', '.']]) rest
      | top :: stackTail =>
        if top = ['.', '.'] then normSegs abs (['.', '.'] :: stack) rest
        else normSegs abs stackTail rest
    else normSegs abs (seg :: stack) rest

/-- Join path segments with `/`. -/
def joinSegs : List (List Char) → List Char
  | [] => []
  | [seg] => seg
  | seg :: rest => seg ++ '/' :: joinSegs rest

/-- Node `path.normalize` on a string path (trailing-slash preservation is
not modelled; no call site produces a trailing slash). -/
def pathNormalize (s : String) : String :=
  let cs := s.data
  let abs : Bool := match cs with | '/' :: _ => true | _ => false
  let body := joinSegs (normSegs abs [] (splitChar '/' cs))
  String.mk (if abs then '/' :: body else if body = [] then ['.'] else body)

/-- Node `path.join(a, b)`: concatenation plus normalization. -/
def pathJoin (a b : String) : String :=
  pathNormalize (a ++ "/" ++ b)

/-- Node `path.resolve(p)` for an absolute `p` (every call site passes an
absolute path): normalization. -/
def pathResolve (p : String) : String :=
  pathNormalize p

/-- `String.prototype.startsWith`, evaluated on the character lists. -/
def jsStartsWith (s pre : String) : Bool :=
  pre.data.isPrefixOf s.data

/-! ## Filesystem and engine state -/

/-- A file's content, seen through `JSON.parse`: either malformed (a parse
error) or a parsed JSON document. -/
inductive FileData where
  | malformed : FileData
  | json : Json → FileData

/-- A snapshot of the fixture tree: regular files (with their parse outcome)
and directories, all under absolute paths. -/
structure FS where
  files : List (String × FileData)
  dirs : List String

/-- `fs.readFileSync` + `JSON.parse` combined: `none` when the path is not a
regular file. -/
def FS.readFile (fsys : FS) (p : String) : Option FileData :=
  (fsys.files.find? (fun e => e.1 = p)).map (·.2)

/-- `fs.statSync(p).isDirectory()`. -/
def FS.isDir (fsys : FS) (p : String) : Bool :=
  fsys.dirs.contains p

/-- `fs.existsSync`. -/
def FS.existsSync (fsys : FS) (p : String) : Bool :=
  (fsys.files.find? (fun e => e.1 = p)).isSome || fsys.isDir p

/-- Constructor configuration of `ResponseManager` (`responseDir` already
resolved to an absolute path, as the constructor does). -/
structure Config where
  responseDir : String
  defaultResponse : String
  lookupField : String

/-- The in-memory cache `this.cache`, keyed by the relative filename. -/
abbrev Cache := List (String × Json)

def cacheLookup (cache : Cache) (k : String) : Option Json :=
  (cache.find? (fun e => e.1 = k)).map (·.2)

/-- `Map.prototype.set` semantics. -/
def cacheInsert (cache : Cache) (k : String) (v : Json) : Cache :=
  (k, v) :: cache.filter (fun e => e.1 ≠ k)

/-! ## Sanitization and candidate patterns -/

/-- A character kept by the sanitizer: `[a-zA-Z0-9_-]`. -/
def isSafeChar (c : Char) : Bool :=
  c.isAlphanum || c = '_' || c = '-'

/-- `String(value).replace(/[^a-zA-Z0-9_-]/g, '_')`. -/
def sanitize (s : String) : String :=
  String.mk (s.data.map (fun c => if isSafeChar c then c else '_'))

/-- JavaScript truthiness of an optional string argument (absent or empty
means falsy). -/
def optTruthy : Option String → Bool
  | none => false
  | some s => s != ""

/-- The derived pattern of `_findFileInDirectory`/`getResponseFile`:
`this.lookupField && this.lookupField.includes('_')` yields
`lookupField.split('_')[0] + '_'`. -/
def derivedPre (lookupField : String) : Option String :=
  if lookupField != "" && lookupField.data.contains '_' then
    some (String.mk ((splitChar '_' lookupField.data).headD []) ++ "_")
  else none

/-- The candidate list built by `_findFileInDirectory` (lines 162-184):
derived prefix, then `user_`, `order_`, `payment_`, `resource_`,
`transaction_`, then the bare value, each suffixed `.json`. -/
def findPatterns (lookupField sanitizedValue : String) : List String :=
  (match derivedPre lookupField with
   | some d => [d ++ sanitizedValue ++ ".json"]
   | none => []) ++
  [ "user_" ++ sanitizedValue ++ ".json",
    "order_" ++ sanitizedValue ++ ".json",
    "payment_" ++ sanitizedValue ++ ".json",
    "resource_" ++ sanitizedValue ++ ".json",
    "transaction_" ++ sanitizedValue ++ ".json",
    sanitizedValue ++ ".json" ]

/-- `_findFileInDirectory(directory, sanitizedValue)`: the first pattern whose
file exists inside `directory`, else `null`. -/
def findFileInDirectory (cfg : Config) (fsys : FS) (directory sanitizedValue : String) : Option String :=
  (findPatterns cfg.lookupField sanitizedValue).find?
    (fun pat => fsys.existsSync (pathJoin directory pat))

/-- The candidate list of the flat branch of `getResponseFile`
(lines 136-150): derived prefix, then `user_`, `order_`, `resource_`,
`transaction_`, then the bare value (`payment_` is absent here). -/
def flatPatterns (lookupField sanitizedValue : String) : List String :=
  (match derivedPre lookupField with
   | some d => [d ++ sanitizedValue ++ ".json"]
   | none => []) ++
  [ "user_" ++ sanitizedValue ++ ".json",
    "order_" ++ sanitizedValue ++ ".json",
    "resource_" ++ sanitizedValue ++ ".json",
    "transaction_" ++ sanitizedValue ++ ".json",
    sanitizedValue ++ ".json" ]

/-- The flat branch of `getResponseFile` (lines 120-159): exact match first,
then the flat pattern list, else the global default. -/
def flatLookup (cfg : Config) (fsys : FS) (sanitized : String) : String :=
  let responseFile := sanitized ++ ".json"
  if fsys.existsSync (pathJoin cfg.responseDir responseFile) then responseFile
  else
    match (flatPatterns cfg.lookupField sanitized).find?
        (fun pat => fsys.existsSync (pathJoin cfg.responseDir pat)) with
    | some pat => pat
    | none => cfg.defaultResponse

/-- `getResponseFile(lookupValue, category)` (lines 76-160). -/
def getResponseFile (cfg : Config) (fsys : FS) (lookupValue category : Option String) : String :=
  if optTruthy lookupValue = false then
    -- `if (!lookupValue)`: use the category default when present, else the
    -- global default.
    match category with
    | some c =>
      if c != "" then
        let sanitizedCategory := sanitize c
        let categoryDir := pathJoin cfg.responseDir sanitizedCategory
        let categoryDefaultPath := pathJoin categoryDir cfg.defaultResponse
        if fsys.existsSync categoryDir && fsys.isDir categoryDir &&
            fsys.existsSync categoryDefaultPath then
          pathJoin sanitizedCategory cfg.defaultResponse
        else cfg.defaultResponse
      else cfg.defaultResponse
    | none => cfg.defaultResponse
  else
    let sanitized := sanitize (lookupValue.getD "")
    match category with
    | some c =>
      if c != "" then
        let sanitizedCategory := sanitize c
        let categoryDir := pathJoin cfg.responseDir sanitizedCategory
        if fsys.existsSync categoryDir && fsys.isDir categoryDir then
          match findFileInDirectory cfg fsys categoryDir sanitized with
          | some categoryResponseFile => pathJoin sanitizedCategory categoryResponseFile
          | none =>
            let categoryDefaultPath := pathJoin categoryDir cfg.defaultResponse
            if fsys.existsSync categoryDefaultPath then
              pathJoin sanitizedCategory cfg.defaultResponse
            else
              -- category directory exists but no matching file: the category
              -- default path is returned anyway (source lines 112-114).
              pathJoin sanitizedCategory cfg.defaultResponse
        else cfg.defaultResponse
      else flatLookup cfg fsys sanitized
    | none => flatLookup cfg fsys sanitized

/-- `loadResponse(filename)` (lines 196-228), with the cache threaded
explicitly.  The traversal check is the source's string `startsWith` on the
resolved path. -/
def loadResponse (cfg : Config) (fsys : FS) (cache : Cache) (filename : String) :
    Option Json × Cache :=
  match cacheLookup cache filename with
  | some cached => (some cached, cache)
  | none =>
    let filePath := pathJoin cfg.responseDir filename
    let resolvedPath := pathResolve filePath
    if jsStartsWith resolvedPath (pathResolve cfg.responseDir) = false then
      (none, cache)
    else if fsys.existsSync filePath = false then
      (none, cache)
    else
      match fsys.readFile filePath with
      | some (FileData.json jsonData) => (some jsonData, cacheInsert cache filename jsonData)
      | _ => (none, cache)

/-- The `config.delay && typeof config.delay === 'number' && config.delay > 0`
check of `loadDelayConfig` applied to the parsed config document; property
access on a non-object yields no delay (on `null` it throws, which the
`catch` turns into `0` as well). -/
def configDelayField : Json → Int
  | Json.obj fields =>
    match (fields.find? (fun e => e.1 = "delay")).map (·.2) with
    | some (Json.num d) => if 0 < d then d else 0
    | _ => 0
  | _ => 0

/-- `loadDelayConfig(category)` (lines 318-350). -/
def loadDelayConfig (cfg : Config) (fsys : FS) (category : Option String) : Int :=
  match category with
  | none => 0
  | some c =>
    if c != "" then
      let configPath := pathJoin (pathJoin cfg.responseDir (sanitize c)) "config.json"
      if fsys.existsSync configPath = false then 0
      else
        match fsys.readFile configPath with
        | some (FileData.json config) => configDelayField config
        | _ => 0
    else 0

/-! ## Template engine

`replacePlaceholders` uses the regex `/\{\{request\.([a-zA-Z0-9_.]+)\}\}/g`.
Because the character class excludes braces, a global-regex pass is
equivalent to a left-to-right scan that, at each position, matches the
literal open token, then a maximal non-empty run of path characters, then
the two closing braces; on failure the scanner advances one character. -/

/-- A character of the regex class `[a-zA-Z0-9_.]`. -/
def isPathChar (c : Char) : Bool :=
  c.isAlphanum || c = '_' || c = '.'

/-- Maximal run of path characters and the remainder. -/
def munchPath : List Char → List Char × List Char
  | [] => ([], [])
  | c :: cs =>
    if isPathChar c then
      let r := munchPath cs
      (c :: r.1, r.2)
    else ([], c :: cs)

/-- Strip an expected literal token; `none` when it does not match. -/
def dropPre : List Char → List Char → Option (List Char)
  | [], cs => some cs
  | _ :: _, [] => none
  | p :: ps, c :: cs => if p = c then dropPre ps cs else none

/-- The literal opening of a placeholder. -/
def openToken : List Char := "\x7b\x7brequest.".data

/-- Try to match one whole placeholder at the head of the input:
the open token, a non-empty maximal path-character run (greedy `+` with no
viable backtracking, since the class excludes the closing brace), then two
closing braces.  Returns the captured field path and the remainder. -/
def tryPlaceholder (cs : List Char) : Option (List Char × List Char) :=
  match dropPre openToken cs with
  | none => none
  | some afterOpen =>
    let m := munchPath afterOpen
    if m.1 = [] then none
    else
      match m.2 with
      | '\x7d' :: '\x7d' :: rest => some (m.1, rest)
      | _ => none

/-- The verbatim text of a placeholder with the given field path. -/
def placeholderText (fieldPath : List Char) : List Char :=
  openToken ++ fieldPath ++ ['\x7d', '\x7d']

/-- `typeof current === 'object'` together with truthiness: only (non-null)
objects and arrays pass. -/
def jsObjLike : Json → Bool
  | Json.obj _ => true
  | Json.arr _ => true
  | _ => false

/-- Value of a canonical decimal numeral. -/
def digitsVal : List Char → Nat → Nat
  | [], acc => acc
  | c :: cs, acc => digitsVal cs (acc * 10 + (c.toNat - '0'.toNat))

/-- A canonical array index as JavaScript coerces property keys: digits only,
no leading zero except `"0"` itself. -/
def canonicalIndex : List Char → Option Nat
  | [] => none
  | ['0'] => some 0
  | c :: cs =>
    if c ≠ '0' ∧ (c :: cs).all Char.isDigit then some (digitsVal (c :: cs) 0)
    else none

/-- A value the dotted-path traversal of `getNestedValue` can reach at
runtime.  The source tests membership with the JavaScript `in` operator,
which also finds inherited prototype-chain properties on JSON-parsed data:
the built-in prototype objects and their native methods are therefore part
of the reachable value space, next to the parsed JSON itself.  A native
function carries the name used by `String(fn)`. -/
inductive JsVal where
  | json : Json → JsVal
  | hostFn : String → JsVal
  | objectProto : JsVal
  | arrayProto : JsVal

/-- The own function-valued properties of `Object.prototype` (Node 18);
`constructor` and the `__proto__` accessor are handled separately. -/
def objectProtoFns : List String :=
  ["hasOwnProperty", "isPrototypeOf", "propertyIsEnumerable", "toLocaleString",
   "toString", "valueOf", "__defineGetter__", "__defineSetter__",
   "__lookupGetter__", "__lookupSetter__"]

/-- The own method properties of `Array.prototype` (Node 18). -/
def arrayProtoFns : List String :=
  ["at", "concat", "copyWithin", "entries", "every", "fill", "filter", "find",
   "findIndex", "findLast", "findLastIndex", "flat", "flatMap", "forEach",
   "includes", "indexOf", "join", "keys", "lastIndexOf", "map", "pop", "push",
   "reduce", "reduceRight", "reverse", "shift", "slice", "some", "sort",
   "splice", "toLocaleString", "toString", "unshift", "values"]

/-- `key in Object.prototype` followed by the property read:
`Object.prototype.constructor` is the `Object` function and
`Object.prototype.__proto__` is `null`. -/
def objectProtoGet (key : String) : Option JsVal :=
  if key = "constructor" then some (JsVal.hostFn "Object")
  else if key = "__proto__" then some (JsVal.json Json.null)
  else if objectProtoFns.contains key then some (JsVal.hostFn key)
  else none

/-- `key in Array.prototype` followed by the property read:
`Array.prototype.length` is `0`, its `constructor` is the `Array` function,
its `__proto__` is `Object.prototype`, and `Object.prototype` is next on its
chain. -/
def arrayProtoGet (key : String) : Option JsVal :=
  if key = "length" then some (JsVal.json (Json.num 0))
  else if key = "constructor" then some (JsVal.hostFn "Array")
  else if key = "__proto__" then some JsVal.objectProto
  else if arrayProtoFns.contains key then some (JsVal.hostFn key)
  else objectProtoGet key

/-- `key in current` followed by `current[key]`: own properties first (own
keys of objects; indices and `length` of arrays), then the prototype chain —
a plain object inherits from `Object.prototype`, an array from
`Array.prototype` and through it from `Object.prototype`. -/
def jsPropGet : JsVal → String → Option JsVal
  | JsVal.json (Json.obj fields), key =>
    match (fields.find? (fun e => e.1 = key)).map (·.2) with
    | some v => some (JsVal.json v)
    | none =>
      if key = "__proto__" then some JsVal.objectProto
      else objectProtoGet key
  | JsVal.json (Json.arr items), key =>
    if key = "length" then some (JsVal.json (Json.num (items.length : Int)))
    else
      match canonicalIndex key.data with
      | some i =>
        match items.get? i with
        | some v => some (JsVal.json v)
        | none => none
      | none =>
        if key = "__proto__" then some JsVal.arrayProto
        else arrayProtoGet key
  | JsVal.objectProto, key => objectProtoGet key
  | JsVal.arrayProto, key => arrayProtoGet key
  | _, _ => none

/-- `current && typeof current === 'object'` on a traversal value: `null`
and every function fail it; the prototype objects pass it. -/
def jsValObjLike : JsVal → Bool
  | JsVal.json j => jsObjLike j
  | JsVal.hostFn _ => false
  | JsVal.objectProto => true
  | JsVal.arrayProto => true

/-- The loop of `getNestedValue` (lines 299-310): walk the split path,
requiring a truthy object at every step. -/
def traverseKeys : JsVal → List String → Option JsVal
  | current, [] => some current
  | current, key :: rest =>
    if jsValObjLike current then
      match jsPropGet current key with
      | some v => traverseKeys v rest
      | none => none
    else none

/-- `getNestedValue(obj, path)` (lines 294-311); `none` models
`undefined`.  Because the loop uses the `in` operator, a path such as
`toString` resolves on any object through the prototype chain. -/
def getNestedValue (objVal : Json) (path : String) : Option JsVal :=
  if jsObjLike objVal then
    traverseKeys (JsVal.json objVal) ((splitChar '.' path.data).map String.mk)
  else none

/-- `String(value)` for every value a traversal can produce: a native
function prints in the V8 form `function name() \x7b [native code] \x7d`,
`Object.prototype` as `[object Object]`, `Array.prototype` (an empty
array-like) as the empty string. -/
def jsValToString : JsVal → String
  | JsVal.json j => jsToString j
  | JsVal.hostFn name => "function " ++ name ++ "() \x7b [native code] \x7d"
  | JsVal.objectProto => "[object Object]"
  | JsVal.arrayProto => ""

/-- The replacement callback of `replacePlaceholders` (lines 273-285): a
resolved non-null, non-undefined value is stringified; otherwise the whole
placeholder text is kept. -/
def substFor (rd : Json) (fieldPath : List Char) : List Char :=
  match getNestedValue rd (String.mk fieldPath) with
  | some (JsVal.json Json.null) => placeholderText fieldPath
  | some v => (jsValToString v).data
  | none => placeholderText fieldPath

/-- The global-regex scan of `template.replace(placeholderRegex, ...)`.  On a
match at the current position, the consumed placeholder occupies
`10 + fieldPath.length + 2` characters, so the scan continues at
`cs.drop (fieldPath.length + 11)` (one consumed character is the list
head). -/
def replaceChars (rd : Json) : List Char → List Char
  | [] => []
  | c :: cs =>
    match tryPlaceholder (c :: cs) with
    | some pr => substFor rd pr.1 ++ replaceChars rd (cs.drop (pr.1.length + 11))
    | none => c :: replaceChars rd cs
termination_by l => l.length
decreasing_by
  · simp only [List.length_drop, List.length_cons]
    omega
  · simp only [List.length_cons]
    omega

/-- `replacePlaceholders(template, requestData)` (lines 266-286). -/
def replacePlaceholders (template : String) (requestData : Json) : String :=
  String.mk (replaceChars requestData template.data)

mutual

/-- `applyTemplating(responseData, requestData)` (lines 237-257): non-objects
(including every string reached here, in particular strings that are array
elements) are returned unchanged; arrays are mapped element-wise through
`applyTemplating`; objects are rebuilt key by key. -/
def applyTemplating : Json → Json → Json
  | Json.arr items, requestData => Json.arr (applyTemplatingList items requestData)
  | Json.obj fields, requestData => Json.obj (applyTemplatingFields fields requestData)
  | other, _ => other

/-- `responseData.map(item => this.applyTemplating(item, requestData))`. -/
def applyTemplatingList : List Json → Json → List Json
  | [], _ => []
  | item :: rest, requestData =>
    applyTemplating item requestData :: applyTemplatingList rest requestData

/-- The `Object.entries` loop of `applyTemplating`: string values get
`replacePlaceholders`, non-null object values recurse, everything else is
copied unchanged. -/
def applyTemplatingFields : List (String × Json) → Json → List (String × Json)
  | [], _ => []
  | (k, Json.str s) :: rest, requestData =>
    (k, Json.str (replacePlaceholders s requestData)) :: applyTemplatingFields rest requestData
  | (k, Json.obj o) :: rest, requestData =>
    (k, applyTemplating (Json.obj o) requestData) :: applyTemplatingFields rest requestData
  | (k, Json.arr a) :: rest, requestData =>
    (k, applyTemplating (Json.arr a) requestData) :: applyTemplatingFields rest requestData
  | (k, v) :: rest, requestData => (k, v) :: applyTemplatingFields rest requestData

end

/-! ## The orchestrator `getResponse` -/

/-- The pair returned by `getResponse`. -/
structure Resolved where
  response : Json
  delay : Int

/-- The synthetic error document (lines 405-411), the only body the engine
manufactures itself. -/
def syntheticError : Json :=
  Json.obj [("status", Json.str "error"), ("message", Json.str "No response file available")]

/-- The final fallback of `getResponse` (lines 395-402): the global default,
served with delay forced to `0`; when even that is unavailable, the
synthetic error document. -/
def globalFallback (cfg : Config) (fsys : FS) (cache : Cache) (requestData : Json) :
    Resolved × Cache :=
  match loadResponse cfg fsys cache cfg.defaultResponse with
  | (some globalDefault, cacheOut) =>
    if jsTruthy globalDefault then
      (⟨applyTemplating globalDefault requestData, 0⟩, cacheOut)
    else (⟨syntheticError, 0⟩, cacheOut)
  | (none, cacheOut) => (⟨syntheticError, 0⟩, cacheOut)

/-- Lines 372-411 of `getResponse`: the `isDefaultFile` guard (note the raw,
unsanitized `category` in the comparison and in the category-default path),
the category-default fallback, the global-default fallback, and the
synthetic error. -/
def fallbackChain (cfg : Config) (fsys : FS) (cache : Cache) (filename : String)
    (category : Option String) (requestData : Json) (delay : Int) : Resolved × Cache :=
  let isDefaultFile : Bool :=
    filename == cfg.defaultResponse ||
      (match category with
       | some c => c != "" && filename == pathJoin c cfg.defaultResponse
       | none => false)
  if isDefaultFile then (⟨syntheticError, 0⟩, cache)
  else
    match category with
    | some c =>
      if c != "" then
        match loadResponse cfg fsys cache (pathJoin c cfg.defaultResponse) with
        | (some categoryResponse, cache2) =>
          if jsTruthy categoryResponse then
            (⟨applyTemplating categoryResponse requestData, delay⟩, cache2)
          else globalFallback cfg fsys cache2 requestData
        | (none, cache2) => globalFallback cfg fsys cache2 requestData
      else globalFallback cfg fsys cache requestData
    | none => globalFallback cfg fsys cache requestData

/-- `getResponse(lookupValue, category, requestData)` (lines 352-412), with
the cache threaded explicitly. -/
def getResponse (cfg : Config) (fsys : FS) (cache : Cache)
    (lookupValue category : Option String) (requestData : Json) : Resolved × Cache :=
  let filename := getResponseFile cfg fsys lookupValue category
  let delay := loadDelayConfig cfg fsys category
  match loadResponse cfg fsys cache filename with
  | (some response, cache1) =>
    if jsTruthy response then
      (⟨applyTemplating response requestData, delay⟩, cache1)
    else fallbackChain cfg fsys cache1 filename category requestData delay
  | (none, cache1) => fallbackChain cfg fsys cache1 filename category requestData delay

/-! ## Spec-side definitions

Definitions in this section follow the wording of the specification or of a
claim, for comparison with the source translations above. -/

/-- Modelled from the spec: the delay combination of the current server
request handler.  The `server.js` under `src/` predates the delay feature
(its `handleRequest` neither passes a category nor reads the delay returned
by `getResponse`); the version the test-suite exercises is not in the
repository snapshot.  Per the spec (§4.4): an explicit per-request override
within `[1, 5000)` wins; overrides `≤ 0` or `≥ 5000` are treated as no
override; otherwise the category `config.json` delay applies, else zero. -/
def resolveDelay (cfg : Config) (fsys : FS) (overrideMs : Option Int)
    (category : Option String) : Int :=
  match overrideMs with
  | some d => if 0 < d ∧ d < 5000 then d else loadDelayConfig cfg fsys category
  | none => loadDelayConfig cfg fsys category

/-- Claim C5's description of the category delay: the `config.json` `delay`
field when that file exists, parses as JSON, and contains a positive numeric
`delay`; otherwise zero. -/
def specConfigDelay (cfg : Config) (fsys : FS) (category : Option String) : Int :=
  match category with
  | some c =>
    if c != "" then
      match fsys.readFile (pathJoin (pathJoin cfg.responseDir (sanitize c)) "config.json") with
      | some (FileData.json (Json.obj fields)) =>
        match (fields.find? (fun e => e.1 = "delay")).map (·.2) with
        | some (Json.num d) => if 0 < d then d else 0
        | _ => 0
      | _ => 0
    else 0
  | none => 0

/-- The candidate order declared by claim C3: derived prefix, `user_`,
`order_`, `resource_`, `payment_`, `transaction_`, bare value. -/
def claimPatternsC3 (lookupField sanitizedValue : String) : List String :=
  (match derivedPre lookupField with
   | some d => [d ++ sanitizedValue ++ ".json"]
   | none => []) ++
  [ "user_" ++ sanitizedValue ++ ".json",
    "order_" ++ sanitizedValue ++ ".json",
    "resource_" ++ sanitizedValue ++ ".json",
    "payment_" ++ sanitizedValue ++ ".json",
    "transaction_" ++ sanitizedValue ++ ".json",
    sanitizedValue ++ ".json" ]

/-- The candidate order the hierarchical search actually uses (amended claim
C3): derived prefix, `user_`, `order_`, `payment_`, `resource_`,
`transaction_`, bare value. -/
def amendedPatternsC3 (lookupField sanitizedValue : String) : List String :=
  (match derivedPre lookupField with
   | some d => [d ++ sanitizedValue ++ ".json"]
   | none => []) ++
  [ "user_" ++ sanitizedValue ++ ".json",
    "order_" ++ sanitizedValue ++ ".json",
    "payment_" ++ sanitizedValue ++ ".json",
    "resource_" ++ sanitizedValue ++ ".json",
    "transaction_" ++ sanitizedValue ++ ".json",
    sanitizedValue ++ ".json" ]

/-- The candidate order of the flat search (amended claim C7): the bare
value first, then derived prefix, `user_`, `order_`, `resource_`,
`transaction_`, then the bare value again — `payment_` is absent. -/
def flatPatternsAmended (lookupField sanitizedValue : String) : List String :=
  (sanitizedValue ++ ".json") ::
  ((match derivedPre lookupField with
    | some d => [d ++ sanitizedValue ++ ".json"]
    | none => []) ++
   [ "user_" ++ sanitizedValue ++ ".json",
     "order_" ++ sanitizedValue ++ ".json",
     "resource_" ++ sanitizedValue ++ ".json",
     "transaction_" ++ sanitizedValue ++ ".json",
     sanitizedValue ++ ".json" ])

/-- Claim C2's notion of a path lying under the fixture root: equal to the
root or extending it at a path-separator boundary. -/
def isDescendant (root p : String) : Bool :=
  p == root || jsStartsWith p (root ++ "/")

/-- `Option Json` truthiness as `getResponse` tests a load result:
`null` (load failure) and falsy documents both fail the `if (response)`
check. -/
def loadedTruthy : Option Json → Bool
  | none => false
  | some j => jsTruthy j

/-- A string without an opening brace, hence without any placeholder
start. -/
def braceFree (s : String) : Bool :=
  s.data.all (fun c => c ≠ '\x7b')

/-- A non-empty field path of regex-class characters. -/
def validFieldPath (p : String) : Bool :=
  p.data ≠ [] && p.data.all isPathChar

/-- The literal text of a placeholder for field path `p`. -/
def placeholderOf (p : String) : String :=
  "\x7b\x7brequest." ++ p ++ "\x7d\x7d"

/-- The per-entry action of the `Object.entries` loop of `applyTemplating`,
as the amended claim C6 states it: string values are substituted, object and
array values recurse, other values are copied. -/
def objValueRewrite (rd : Json) : Json → Json
  | Json.str s => Json.str (replacePlaceholders s rd)
  | Json.obj fields => applyTemplating (Json.obj fields) rd
  | Json.arr items => applyTemplating (Json.arr items) rd
  | v => v

/-! ## Concrete scenarios

Configurations and filesystem snapshots used by the witness and
counterexample theorems.  `cfgA` is the default configuration
(`RESPONSE_DIR` resolved to `/app/responses`, `DEFAULT_RESPONSE` of
`default.json`, `LOOKUP_FIELD` of `id`). -/

def cfgA : Config := ⟨"/app/responses", "default.json", "id"⟩

/-- A plain readable global default document. -/
def defaultDoc : Json := Json.obj [("ok", Json.bool true)]

/-- C1: the `user` category directory exists but holds neither a matching
file nor a `default.json`; the global default is readable. -/
def fsC1 : FS :=
  ⟨[("/app/responses/default.json", FileData.json defaultDoc)],
   ["/app/responses", "/app/responses/user"]⟩

/-- C2: a sibling directory `/app/responses_x` of the fixture root whose
name extends the root's name, holding a file the engine must never serve. -/
def outsideDoc : Json := Json.obj [("secret", Json.bool true)]

def fsC2 : FS :=
  ⟨[("/app/responses_x/default.json", FileData.json outsideDoc),
    ("/app/responses/default.json", FileData.json defaultDoc)],
   ["/app/responses", "/app/responses/___responses_x", "/app/responses_x"]⟩

/-- C3: a category directory holding both a `payment_`-prefixed and a
`resource_`-prefixed fixture for the same value. -/
def fsC3 : FS :=
  ⟨[("/app/responses/pay/payment_7.json", FileData.json (Json.obj [("p", Json.bool true)])),
    ("/app/responses/pay/resource_7.json", FileData.json (Json.obj [("r", Json.bool true)]))],
   ["/app/responses", "/app/responses/pay"]⟩

/-- C4: the `order` category has a matching but malformed fixture, no
category default, and a `config.json` with a positive delay; the global
default is readable. -/
def fsC4 : FS :=
  ⟨[("/app/responses/order/order_5.json", FileData.malformed),
    ("/app/responses/order/config.json",
      FileData.json (Json.obj [("delay", Json.num 1500)])),
    ("/app/responses/default.json", FileData.json defaultDoc)],
   ["/app/responses", "/app/responses/order"]⟩

/-- C4 counterexample: the `order` category directory exists with a
`config.json` delay but holds no `default.json`, and the lookup value is
absent, so path resolution returns the global default path directly. -/
def fsC4D : FS :=
  ⟨[("/app/responses/order/config.json",
      FileData.json (Json.obj [("delay", Json.num 1500)])),
    ("/app/responses/default.json", FileData.json defaultDoc)],
   ["/app/responses", "/app/responses/order"]⟩

/-- C7 counterexample: only a `payment_`-prefixed fixture exists at the
fixture root. -/
def fsC7 : FS :=
  ⟨[("/app/responses/payment_7.json", FileData.json (Json.obj [("p", Json.bool true)]))],
   ["/app/responses"]⟩

/-- C7 witness: a `user_`-prefixed fixture at the fixture root. -/
def fsC7W : FS :=
  ⟨[("/app/responses/user_9.json", FileData.json (Json.obj [("u", Json.bool true)]))],
   ["/app/responses"]⟩

/-- C8: no category directory; a flat fixture and the global default exist
at the root. -/
def fsC8 : FS :=
  ⟨[("/app/responses/x.json", FileData.json (Json.obj [("x", Json.bool true)])),
    ("/app/responses/default.json", FileData.json defaultDoc)],
   ["/app/responses"]⟩

/-- C9: a cached fixture containing a placeholder. -/
def docTpl : Json := Json.obj [("id", Json.str "\x7b\x7brequest.who\x7d\x7d")]

def fsC9 : FS :=
  ⟨[("/app/responses/u.json", FileData.json docTpl)],
   ["/app/responses"]⟩

/-- C10: a category with an existing default file, next to a flat fixture
that an (incorrect) prefix search for the empty value could find. -/
def fsC10 : FS :=
  ⟨[("/app/responses/user/default.json", FileData.json defaultDoc),
    ("/app/responses/.json", FileData.json (Json.obj [("flat", Json.bool true)]))],
   ["/app/responses", "/app/responses/user"]⟩

/-! ## Helper lemmas -/

theorem cacheLookup_insert (cache : Cache) (k : String) (v : Json) :
    cacheLookup (cacheInsert cache k v) k = some v := by
  simp [cacheLookup, cacheInsert]

theorem loadResponse_cached (cfg : Config) (fsys : FS) (cache : Cache) (fn : String)
    (j : Json) (cache' : Cache) (h : loadResponse cfg fsys cache fn = (some j, cache')) :
    cacheLookup cache' fn = some j := by
  unfold loadResponse at h
  rcases hc : cacheLookup cache fn with _ | cached
  · rw [hc] at h
    by_cases hs : jsStartsWith (pathResolve (pathJoin cfg.responseDir fn))
        (pathResolve cfg.responseDir) = false
    · simp [hs] at h
    · rw [if_neg hs] at h
      by_cases he : fsys.existsSync (pathJoin cfg.responseDir fn) = false
      · simp [he] at h
      · rw [if_neg he] at h
        rcases hr : fsys.readFile (pathJoin cfg.responseDir fn) with _ | fd
        · rw [hr] at h
          simp at h
        · rw [hr] at h
          cases fd with
          | malformed => simp at h
          | json jd =>
            simp at h
            rw [← h.1, ← h.2]
            exact cacheLookup_insert cache fn jd
  · rw [hc] at h
    simp at h
    rw [← h.1, ← h.2]
    exact hc

theorem dropPre_append_self (ps : List Char) :
    ∀ cs : List Char, dropPre ps (ps ++ cs) = some cs := by
  induction ps with
  | nil => intro cs; rfl
  | cons p ps ih => intro cs; simp [dropPre, ih]

theorem munchPath_path_append (p : List Char) (c : Char) (rest : List Char)
    (hp : ∀ x ∈ p, isPathChar x = true) (hc : isPathChar c = false) :
    munchPath (p ++ c :: rest) = (p, c :: rest) := by
  induction p with
  | nil => simp [munchPath, hc]
  | cons a p ih =>
    have ha : isPathChar a = true := hp a (List.mem_cons_self a p)
    have hrest : ∀ x ∈ p, isPathChar x = true := fun x hx => hp x (List.mem_cons_of_mem a hx)
    simp [munchPath, ha, ih hrest]

theorem tryPlaceholder_match (p b : List Char)
    (hne : p ≠ []) (hp : ∀ x ∈ p, isPathChar x = true) :
    tryPlaceholder (openToken ++ (p ++ ('\x7d' :: '\x7d' :: b))) = some (p, b) := by
  have hclose : isPathChar '\x7d' = false := by decide
  unfold tryPlaceholder
  simp only [dropPre_append_self, munchPath_path_append p '\x7d' ('\x7d' :: b) hp hclose]
  simp [hne]

theorem tryPlaceholder_not_open (c : Char) (cs : List Char) (hc : c ≠ '\x7b') :
    tryPlaceholder (c :: cs) = none := by
  have hop : openToken = '\x7b' :: "\x7brequest.".data := rfl
  unfold tryPlaceholder
  rw [hop]
  simp only [dropPre]
  rw [if_neg (fun h : '\x7b' = c => hc h.symm)]

theorem replaceChars_nil (rd : Json) : replaceChars rd [] = [] := by
  simp [replaceChars]

theorem replaceChars_cons_none (rd : Json) (c : Char) (cs : List Char)
    (h : tryPlaceholder (c :: cs) = none) :
    replaceChars rd (c :: cs) = c :: replaceChars rd cs := by
  simp only [replaceChars]
  rw [h]

theorem replaceChars_not_open (rd : Json) (c : Char) (cs : List Char) (hc : c ≠ '\x7b') :
    replaceChars rd (c :: cs) = c :: replaceChars rd cs :=
  replaceChars_cons_none rd c cs (tryPlaceholder_not_open c cs hc)

theorem replaceChars_braceFree_append (rd : Json) (a t : List Char)
    (h : ∀ c ∈ a, c ≠ '\x7b') :
    replaceChars rd (a ++ t) = a ++ replaceChars rd t := by
  induction a with
  | nil => simp
  | cons c a ih =>
    have hc : c ≠ '\x7b' := h c (List.mem_cons_self c a)
    have ha : ∀ x ∈ a, x ≠ '\x7b' := fun x hx => h x (List.mem_cons_of_mem c hx)
    rw [List.cons_append, replaceChars_not_open rd c (a ++ t) hc, ih ha, List.cons_append]

theorem replaceChars_placeholder (rd : Json) (p b : List Char)
    (hne : p ≠ []) (hp : ∀ x ∈ p, isPathChar x = true) :
    replaceChars rd (openToken ++ (p ++ ('\x7d' :: '\x7d' :: b))) =
      substFor rd p ++ replaceChars rd b := by
  have hsplit : openToken ++ (p ++ ('\x7d' :: '\x7d' :: b)) =
      '\x7b' :: ("\x7brequest.".data ++ (p ++ ('\x7d' :: '\x7d' :: b))) := rfl
  have harr : "\x7brequest.".data ++ (p ++ ('\x7d' :: '\x7d' :: b)) =
      (("\x7brequest.".data ++ p) ++ ['\x7d', '\x7d']) ++ b := by simp
  have hlen : (("\x7brequest.".data ++ p) ++ ['\x7d', '\x7d']).length = p.length + 11 := by
    simp [List.length_append]
  rw [hsplit]
  simp only [replaceChars]
  rw [← hsplit, tryPlaceholder_match p b hne hp]
  simp only [harr, List.drop_left' hlen]

theorem applyTemplatingList_map (items : List Json) (rd : Json) :
    applyTemplatingList items rd = items.map (fun it => applyTemplating it rd) := by
  induction items with
  | nil => rfl
  | cons item rest ih => simp [applyTemplatingList, ih]

theorem applyTemplatingFields_map (fields : List (String × Json)) (rd : Json) :
    applyTemplatingFields fields rd =
      fields.map (fun kv => (kv.1, objValueRewrite rd kv.2)) := by
  induction fields with
  | nil => rfl
  | cons kv rest ih =>
    rcases kv with ⟨k, v⟩
    cases v <;> simp [applyTemplatingFields, objValueRewrite, ih]

/-! ## Claim theorems -/

/-- C8: for every lookup value and every category whose sanitized name does
not exist as a directory under the fixture root, `getResponseFile` returns
the global default path immediately, regardless of what flat fixture files
exist at the root (so no flat lookup is attempted for that lookup value). -/
theorem c8_nonexistent_category (cfg : Config) (fsys : FS) (lv : Option String) (c : String)
    (hc : c ≠ "") (hdir : fsys.isDir (pathJoin cfg.responseDir (sanitize c)) = false) :
    getResponseFile cfg fsys lv (some c) = cfg.defaultResponse := by
  have hcb : (c != "") = true := by simpa using hc
  unfold getResponseFile
  by_cases hlv : optTruthy lv = false
  · simp [hlv, hcb, hdir]
  · simp [hlv, hcb, hdir]

/-- C8 witness: category `ghost` has no directory, so the global default
path is returned even though the flat fixture `x.json` for the lookup value
exists at the root. -/
theorem c8_witness : getResponseFile cfgA fsC8 (some "x") (some "ghost") = "default.json" :=
  c8_nonexistent_category cfgA fsC8 (some "x") "ghost" (by decide) (by decide)

/-- C10: calling `getResponseFile` with the empty string behaves exactly as
with an absent lookup value — the category default path when the category
directory and its default file exist, the global default otherwise, and
never the prefix-candidate search. -/
theorem c10_empty_lookup (cfg : Config) (fsys : FS) (cat : Option String) :
    getResponseFile cfg fsys (some "") cat = getResponseFile cfg fsys none cat ∧
    getResponseFile cfg fsys (some "") cat =
      (match cat with
       | some c =>
         if c != "" then
           if fsys.existsSync (pathJoin cfg.responseDir (sanitize c)) &&
               fsys.isDir (pathJoin cfg.responseDir (sanitize c)) &&
               fsys.existsSync (pathJoin (pathJoin cfg.responseDir (sanitize c))
                 cfg.defaultResponse) then
             pathJoin (sanitize c) cfg.defaultResponse
           else cfg.defaultResponse
         else cfg.defaultResponse
       | none => cfg.defaultResponse) := by
  constructor
  · rfl
  · cases cat <;> rfl

/-- C3 counterexample: with both `payment_7.json` and `resource_7.json`
present, the hierarchical search returns the `payment_`-prefixed file,
whereas the order declared by the claim (`resource_` before `payment_`)
would find the `resource_`-prefixed one. -/
theorem c3_counterexample :
    findFileInDirectory cfgA fsC3 "/app/responses/pay" "7" = some "payment_7.json" ∧
    (claimPatternsC3 cfgA.lookupField "7").find?
        (fun pat => fsC3.existsSync (pathJoin "/app/responses/pay" pat)) =
      some "resource_7.json" ∧
    findFileInDirectory cfgA fsC3 "/app/responses/pay" "7" ≠
      (claimPatternsC3 cfgA.lookupField "7").find?
        (fun pat => fsC3.existsSync (pathJoin "/app/responses/pay" pat)) := by
  refine ⟨by decide, by decide, by decide⟩

/-- C3 (amended): the hierarchical search tests, in order, the field-derived
prefix, then `user_`, `order_`, `payment_`, `resource_`, `transaction_`,
then the bare value (each suffixed `.json`), and returns the first candidate
whose file exists in the category directory. -/
theorem c3_amended (cfg : Config) (fsys : FS) (directory v : String) :
    findFileInDirectory cfg fsys directory v =
      (amendedPatternsC3 cfg.lookupField v).find?
        (fun pat => fsys.existsSync (pathJoin directory pat)) ∧
    ∀ f, findFileInDirectory cfg fsys directory v = some f →
      fsys.existsSync (pathJoin directory f) = true ∧
        f ∈ amendedPatternsC3 cfg.lookupField v := by
  constructor
  · rfl
  · intro f hf
    unfold findFileInDirectory at hf
    have hmem : f ∈ findPatterns cfg.lookupField v := List.mem_of_find?_eq_some hf
    have h1 := List.find?_some hf
    exact ⟨by simpa using h1, hmem⟩

/-- C3 witness: the amended order finds `payment_7.json` first and that file
indeed exists in the category directory. -/
theorem c3_amended_witness :
    fsC3.existsSync (pathJoin "/app/responses/pay" "payment_7.json") = true ∧
    "payment_7.json" ∈ amendedPatternsC3 cfgA.lookupField "7" :=
  (c3_amended cfgA fsC3 "/app/responses/pay" "7").2 "payment_7.json" (by decide)

/-- C7 counterexample: with only `payment_7.json` at the fixture root, the
flat search returns the global default while the hierarchical candidate
algorithm applied to the root directory finds `payment_7.json` — the two
searches do not use the same candidate list. -/
theorem c7_counterexample :
    getResponseFile cfgA fsC7 (some "7") none = "default.json" ∧
    findFileInDirectory cfgA fsC7 cfgA.responseDir "7" = some "payment_7.json" ∧
    getResponseFile cfgA fsC7 (some "7") none ≠
      ((findPatterns cfgA.lookupField (sanitize "7")).find?
          (fun pat => fsC7.existsSync (pathJoin cfgA.responseDir pat))).getD
        cfgA.defaultResponse := by
  refine ⟨by decide, by decide, by decide⟩

/-- C7 (amended): the flat search at the fixture root tests the bare value's
filename first, then the field-derived prefix, `user_`, `order_`,
`resource_`, `transaction_`, then the bare value again — omitting
`payment_` — and returns the global default path when no candidate
exists. -/
theorem c7_flat_amended (cfg : Config) (fsys : FS) (v : String) (hv : v ≠ "") :
    getResponseFile cfg fsys (some v) none =
      ((flatPatternsAmended cfg.lookupField (sanitize v)).find?
          (fun pat => fsys.existsSync (pathJoin cfg.responseDir pat))).getD
        cfg.defaultResponse := by
  have hvb : optTruthy (some v) = true := by simp [optTruthy, hv]
  have htail : flatPatternsAmended cfg.lookupField (sanitize v) =
      (sanitize v ++ ".json") :: flatPatterns cfg.lookupField (sanitize v) := rfl
  unfold getResponseFile
  simp only [hvb, Bool.true_eq_false, if_false]
  unfold flatLookup
  dsimp only [Option.getD_some]
  rw [htail]
  by_cases hb : fsys.existsSync (pathJoin cfg.responseDir (sanitize v ++ ".json")) = true
  · rw [if_pos hb,
      @List.find?_cons_of_pos String (fun pat => fsys.existsSync (pathJoin cfg.responseDir pat))
        (sanitize v ++ ".json") (flatPatterns cfg.lookupField (sanitize v)) hb]
    rfl
  · have hb' : fsys.existsSync (pathJoin cfg.responseDir (sanitize v ++ ".json")) = false := by
      simpa using hb
    rw [if_neg (by simp [hb']),
      @List.find?_cons_of_neg String (fun pat => fsys.existsSync (pathJoin cfg.responseDir pat))
        (sanitize v ++ ".json") (flatPatterns cfg.lookupField (sanitize v)) hb]
    cases hf : (flatPatterns cfg.lookupField (sanitize v)).find?
        (fun pat => fsys.existsSync (pathJoin cfg.responseDir pat)) <;> simp [hf]

/-- C7 witness: for lookup value `9` with only `user_9.json` at the root,
the flat search returns `user_9.json`, matching the amended candidate
order. -/
theorem c7_witness : getResponseFile cfgA fsC7W (some "9") none = "user_9.json" := by
  have h := c7_flat_amended cfgA fsC7W "9" (by decide)
  rw [h]
  decide

/-- C1 (code bug evaluation): when the resolved path is the category-default
path and that file is missing, `getResponse` returns the synthetic error
document with zero delay even though the global default is present and
readable — the fallback chain promised by the spec (and by the source's own
comment in `getResponseFile`) is skipped because of the `isDefaultFile`
guard. -/
theorem c1_code_evaluation :
    getResponseFile cfgA fsC1 (some "1") (some "user") = "user/default.json" ∧
    (getResponse cfgA fsC1 [] (some "1") (some "user") (Json.obj [])).1 =
      ⟨syntheticError, 0⟩ ∧
    (loadResponse cfgA fsC1 [] cfgA.defaultResponse).1 = some defaultDoc ∧
    jsTruthy defaultDoc = true :=
  ⟨rfl, rfl, rfl, rfl⟩

/-- C2 (code bug evaluation): the category `../responses_x` drives the
fallback chain to read `/app/responses_x/default.json`, a file outside the
fixture root (the canonicalized path is not a descendant of the root), and
`getResponse` serves its content: the `startsWith` guard of `loadResponse`
accepts any sibling whose name extends the root's name, and the fallback
uses the unsanitized category. -/
theorem c2_code_evaluation :
    pathResolve (pathJoin cfgA.responseDir "../responses_x/default.json") =
      "/app/responses_x/default.json" ∧
    isDescendant (pathResolve cfgA.responseDir) "/app/responses_x/default.json" = false ∧
    (loadResponse cfgA fsC2 [] "../responses_x/default.json").1 = some outsideDoc ∧
    (getResponse cfgA fsC2 [] (some "v") (some "../responses_x") (Json.obj [])).1.response =
      outsideDoc :=
  ⟨rfl, by decide, rfl, rfl⟩

/-- The category-default comparison and fallback of `fallbackChain` reduce
to the global fallback when the filename is no default file and the
category-default load is not a truthy document. -/
theorem fallbackChain_to_global (cfg : Config) (fsys : FS) (cache : Cache) (fn : String)
    (c : String) (rd : Json) (delay : Int) (r2 : Option Json) (c2 : Cache)
    (hcb : (c != "") = true)
    (h2 : fn ≠ cfg.defaultResponse)
    (h3 : fn ≠ pathJoin c cfg.defaultResponse)
    (hl2 : loadResponse cfg fsys cache (pathJoin c cfg.defaultResponse) = (r2, c2))
    (hr2 : loadedTruthy r2 = false) :
    fallbackChain cfg fsys cache fn (some c) rd delay = globalFallback cfg fsys c2 rd := by
  have hdef : (fn == cfg.defaultResponse) = false := by
    simpa using h2
  have hcat : (fn == pathJoin c cfg.defaultResponse) = false := by
    simpa using h3
  unfold fallbackChain
  simp only [hdef, hcb, hcat, Bool.and_false, Bool.or_false, Bool.false_or, Bool.or_self,
    Bool.false_eq_true, if_false]
  rw [hl2]
  cases r2 with
  | none => rfl
  | some j =>
    have hj : jsTruthy j = false := by simpa [loadedTruthy] using hr2
    simp [hj]

/-- A successful truthy load of the global default makes `globalFallback`
serve the templated global default with zero delay. -/
theorem globalFallback_serves (cfg : Config) (fsys : FS) (cache : Cache) (rd : Json)
    (g : Json) (c3 : Cache)
    (hl3 : loadResponse cfg fsys cache cfg.defaultResponse = (some g, c3))
    (hg : jsTruthy g = true) :
    globalFallback cfg fsys cache rd = (⟨applyTemplating g rd, 0⟩, c3) := by
  unfold globalFallback
  rw [hl3]
  simp [hg]

/-- C4 counterexample: with an absent lookup value and a category directory
that has a positive `config.json` delay but no `default.json`, path
resolution returns the global default path directly; `getResponse` serves
the global-default body with the category's delay of `1500`, not zero —
refuting the claim for requests whose global-default body does not come from
the fallback chain. -/
theorem c4_counterexample :
    getResponseFile cfgA fsC4D none (some "order") = cfgA.defaultResponse ∧
    (getResponse cfgA fsC4D [] none (some "order") (Json.obj [])).1.response = defaultDoc ∧
    (getResponse cfgA fsC4D [] none (some "order") (Json.obj [])).1.delay = 1500 :=
  ⟨rfl, rfl, rfl⟩

/-- C4 (amended): for every request whose body is served by the
global-default fallback of the fallback chain — the resolved filename loads
no truthy document, is itself no default file, and the category default
loads no truthy document either — the returned delay is zero, even though
the category's `config.json` delay was computed for the request.  (When path
resolution yields the global default path directly, as in the
counterexample, the category delay is applied instead.) -/
theorem c4_global_default_zero_delay (cfg : Config) (fsys : FS) (cache : Cache) (rd : Json)
    (lv : Option String) (c : String) (fn : String) (r1 : Option Json) (c1 : Cache)
    (r2 : Option Json) (c2 : Cache) (g : Json) (c3 : Cache)
    (hc : c ≠ "")
    (hfn : getResponseFile cfg fsys lv (some c) = fn)
    (hl1 : loadResponse cfg fsys cache fn = (r1, c1))
    (hr1 : loadedTruthy r1 = false)
    (h2 : fn ≠ cfg.defaultResponse)
    (h3 : fn ≠ pathJoin c cfg.defaultResponse)
    (hl2 : loadResponse cfg fsys c1 (pathJoin c cfg.defaultResponse) = (r2, c2))
    (hr2 : loadedTruthy r2 = false)
    (hl3 : loadResponse cfg fsys c2 cfg.defaultResponse = (some g, c3))
    (hg : jsTruthy g = true) :
    (getResponse cfg fsys cache lv (some c) rd).1 = ⟨applyTemplating g rd, 0⟩ := by
  have hcb : (c != "") = true := by simpa using hc
  unfold getResponse
  dsimp only
  rw [hfn, hl1]
  cases r1 with
  | none =>
    dsimp only
    rw [fallbackChain_to_global cfg fsys c1 fn c rd _ r2 c2 hcb h2 h3 hl2 hr2,
      globalFallback_serves cfg fsys c2 rd g c3 hl3 hg]
  | some j =>
    have hj : jsTruthy j = false := by simpa [loadedTruthy] using hr1
    dsimp only
    rw [if_neg (by simp [hj]),
      fallbackChain_to_global cfg fsys c1 fn c rd _ r2 c2 hcb h2 h3 hl2 hr2,
      globalFallback_serves cfg fsys c2 rd g c3 hl3 hg]

/-- C4 witness: the `order` category resolves to a malformed fixture, has no
category default, and carries a `config.json` delay of `1500`; the global
default is served with delay `0`. -/
theorem c4_witness :
    loadDelayConfig cfgA fsC4 (some "order") = 1500 ∧
    (getResponse cfgA fsC4 [] (some "5") (some "order") (Json.obj [])).1 =
      ⟨defaultDoc, 0⟩ := by
  refine ⟨by decide, ?_⟩
  exact c4_global_default_zero_delay cfgA fsC4 [] (Json.obj []) (some "5") "order"
    "order/order_5.json" none [] none [] defaultDoc [("default.json", defaultDoc)]
    (by decide) rfl rfl rfl (by decide) (by decide) rfl rfl rfl rfl

/-- C9: when the resolved fixture loads successfully as a truthy document
`j`, `getResponse` returns the templated copy of `j` while the cache after
the call still maps the resolved filename to the originally parsed `j`
itself — template substitution never alters the cached document. -/
theorem c9_cache_unchanged (cfg : Config) (fsys : FS) (cache : Cache)
    (lv cat : Option String) (rd : Json) (j : Json) (c1 : Cache)
    (hl : loadResponse cfg fsys cache (getResponseFile cfg fsys lv cat) = (some j, c1))
    (hj : jsTruthy j = true) :
    getResponse cfg fsys cache lv cat rd =
      (⟨applyTemplating j rd, loadDelayConfig cfg fsys cat⟩, c1) ∧
    cacheLookup c1 (getResponseFile cfg fsys lv cat) = some j := by
  constructor
  · unfold getResponse
    dsimp only
    rw [hl]
    simp [hj]
  · exact loadResponse_cached cfg fsys cache _ j c1 hl

/-- C9 witness: the cached fixture keeps its placeholder text while the
response carries the substituted copy. -/
theorem c9_witness :
    getResponse cfgA fsC9 [] (some "u") none (Json.obj [("who", Json.str "me")]) =
      (⟨Json.obj [("id", Json.str "me")], 0⟩, [("u.json", docTpl)]) ∧
    cacheLookup [("u.json", docTpl)] "u.json" = some docTpl := by
  have h := c9_cache_unchanged cfgA fsC9 [] (some "u") none
    (Json.obj [("who", Json.str "me")]) docTpl [("u.json", docTpl)] rfl rfl
  refine ⟨?_, h.2⟩
  rw [h.1]
  have htpl : applyTemplating docTpl (Json.obj [("who", Json.str "me")]) =
      Json.obj [("id", Json.str "me")] := by
    simp [docTpl, applyTemplating, applyTemplatingFields, replacePlaceholders, replaceChars,
      tryPlaceholder, dropPre, openToken, munchPath, isPathChar, substFor, placeholderText,
      getNestedValue, jsObjLike, jsValObjLike, splitChar, traverseKeys, jsPropGet,
      jsValToString, jsToString]
  rw [htpl]
  rfl

/-- C5: the effective delay is the explicit per-request override when it
lies within `[1, 5000)`; an absent override, or one `≤ 0` or `≥ 5000`, defers
to the category delay; and the source `loadDelayConfig` yields exactly the
claim's description — the `config.json` delay field when that file exists,
parses as JSON, and contains a positive numeric delay, else zero.  The
override combination is modelled from the spec (see `resolveDelay`). -/
theorem c5_delay_priority (cfg : Config) (fsys : FS) (ov : Option Int) (cat : Option String) :
    (∀ d : Int, ov = some d → 0 < d → d < 5000 → resolveDelay cfg fsys ov cat = d) ∧
    ((ov = none ∨ ∃ d : Int, ov = some d ∧ (d ≤ 0 ∨ 5000 ≤ d)) →
      resolveDelay cfg fsys ov cat = loadDelayConfig cfg fsys cat) ∧
    loadDelayConfig cfg fsys cat = specConfigDelay cfg fsys cat := by
  refine ⟨?_, ?_, ?_⟩
  · rintro d rfl hd1 hd2
    simp [resolveDelay, hd1, hd2]
  · rintro (rfl | ⟨d, rfl, hd⟩)
    · rfl
    · have hnot : ¬(0 < d ∧ d < 5000) := by omega
      simp [resolveDelay, hnot]
  · cases cat with
    | none => rfl
    | some c =>
      by_cases hcb : (c != "") = true
      · unfold loadDelayConfig specConfigDelay
        simp only [hcb, if_true]
        rcases hfind : fsys.files.find?
            (fun e => e.1 = pathJoin (pathJoin cfg.responseDir (sanitize c)) "config.json")
          with _ | e
        · have hread : fsys.readFile
              (pathJoin (pathJoin cfg.responseDir (sanitize c)) "config.json") = none := by
            simp [FS.readFile, hfind]
          rw [hread]
          cases hex : fsys.existsSync
              (pathJoin (pathJoin cfg.responseDir (sanitize c)) "config.json") <;>
            simp [hex, hread]
        · obtain ⟨p, fd⟩ := e
          have hread : fsys.readFile
              (pathJoin (pathJoin cfg.responseDir (sanitize c)) "config.json") = some fd := by
            simp [FS.readFile, hfind]
          have hex : fsys.existsSync
              (pathJoin (pathJoin cfg.responseDir (sanitize c)) "config.json") = true := by
            simp [FS.existsSync, hfind]
          rw [hread, if_neg (by simp [hex])]
          cases fd with
          | malformed => rfl
          | json j => cases j <;> rfl
      · have hcb' : (c != "") = false := by simpa using hcb
        simp [loadDelayConfig, specConfigDelay, hcb']

/-- C5 witness: an override of `500` beats the category delay `1500`; an
override of `9000` is ignored in favour of the category delay. -/
theorem c5_witness :
    resolveDelay cfgA fsC4 (some 500) (some "order") = 500 ∧
    resolveDelay cfgA fsC4 (some 9000) (some "order") = 1500 := by
  have t1 := (c5_delay_priority cfgA fsC4 (some 500) (some "order")).1 500 rfl
    (by decide) (by decide)
  have t2 := (c5_delay_priority cfgA fsC4 (some 9000) (some "order")).2.1
    (Or.inr ⟨9000, rfl, by decide⟩)
  refine ⟨t1, ?_⟩
  rw [t2]
  decide

/-- A placeholder-free text followed by one placeholder: the scan copies the
text, handles the placeholder, and continues independently on the rest. -/
theorem replaceChars_around_placeholder (rd : Json) (a p b : String)
    (ha : braceFree a = true) (hp : validFieldPath p = true) :
    replaceChars rd (a ++ placeholderOf p ++ b).data =
      a.data ++ (substFor rd p.data ++ replaceChars rd b.data) := by
  have hA : ∀ c ∈ a.data, c ≠ '\x7b' := by
    simpa [braceFree, List.all_eq_true] using ha
  have hp' : p.data ≠ [] ∧ ∀ x ∈ p.data, isPathChar x = true := by
    have := hp
    unfold validFieldPath at this
    simp only [Bool.and_eq_true, decide_eq_true_eq, List.all_eq_true] at this
    exact this
  have hclose : ("\x7d\x7d" : String).data = ['\x7d', '\x7d'] := rfl
  have hdata : (a ++ placeholderOf p ++ b).data =
      a.data ++ (openToken ++ (p.data ++ ('\x7d' :: '\x7d' :: b.data))) := by
    simp [placeholderOf, openToken, String.data_append, hclose]
  rw [hdata, replaceChars_braceFree_append rd a.data _ hA,
    replaceChars_placeholder rd p.data b.data hp'.1 hp'.2]

/-- C6 counterexample: the placeholder path `a` resolves to `1` in the
request data and `replacePlaceholders` would substitute it, yet a fixture
that is an array with that placeholder string as a direct element is
returned completely unchanged by `applyTemplating` — refuting the claim that
every resolvable placeholder in an object-or-array document is replaced. -/
theorem c6_counterexample :
    getNestedValue (Json.obj [("a", Json.num 1)]) "a" = some (JsVal.json (Json.num 1)) ∧
    replacePlaceholders (placeholderOf "a") (Json.obj [("a", Json.num 1)]) = "1" ∧
    applyTemplating (Json.arr [Json.str (placeholderOf "a")]) (Json.obj [("a", Json.num 1)]) =
      Json.arr [Json.str (placeholderOf "a")] := by
  refine ⟨rfl, ?_, rfl⟩
  simp [replacePlaceholders, replaceChars, tryPlaceholder, dropPre, openToken, munchPath,
    isPathChar, substFor, placeholderText, getNestedValue, jsObjLike, jsValObjLike, splitChar,
    traverseKeys, jsPropGet, jsValToString, jsToString, placeholderOf]
  decide

/-- C6 (amended): template application replaces every placeholder occurring
in a string that is an object property value (recursively through nested
objects and arrays of objects) whose dot-separated path resolves through the
request data to a non-null value — resolution following the JavaScript `in`
operator, so prototype-chain properties such as `toString` resolve too —
substituting its string representation and preserving surrounding text, with
multiple placeholders per string handled independently; an unresolvable or
null path leaves the entire placeholder text unchanged.  Strings that are
direct array elements (or a whole-document string) pass through with no
substitution at all, and non-string, non-object, non-array leaves are
unchanged. -/
theorem c6_templating_amended (rd : Json) :
    (∀ a p b : String, ∀ v : JsVal, braceFree a = true → validFieldPath p = true →
       getNestedValue rd p = some v → v ≠ JsVal.json Json.null →
       replacePlaceholders (a ++ placeholderOf p ++ b) rd =
         a ++ jsValToString v ++ replacePlaceholders b rd) ∧
    (∀ a p b : String, braceFree a = true → validFieldPath p = true →
       (getNestedValue rd p = none ∨ getNestedValue rd p = some (JsVal.json Json.null)) →
       replacePlaceholders (a ++ placeholderOf p ++ b) rd =
         a ++ placeholderOf p ++ replacePlaceholders b rd) ∧
    (∀ fields, applyTemplating (Json.obj fields) rd =
       Json.obj (fields.map (fun kv => (kv.1, objValueRewrite rd kv.2)))) ∧
    (∀ items, applyTemplating (Json.arr items) rd =
       Json.arr (items.map (fun it => applyTemplating it rd))) ∧
    (∀ s, applyTemplating (Json.str s) rd = Json.str s) := by
  refine ⟨?_, ?_, ?_, ?_, fun s => rfl⟩
  · intro a p b v ha hp hres hnull
    have key := replaceChars_around_placeholder rd a p b ha hp
    have hsub : substFor rd p.data = (jsValToString v).data := by
      unfold substFor
      have hmk : String.mk p.data = p := rfl
      rw [hmk, hres]
      cases v with
      | json j =>
        cases j with
        | null => exact absurd rfl hnull
        | bool x => rfl
        | num x => rfl
        | str x => rfl
        | arr x => rfl
        | obj x => rfl
      | hostFn n => rfl
      | objectProto => rfl
      | arrayProto => rfl
    apply String.ext
    show replaceChars rd (a ++ placeholderOf p ++ b).data = _
    rw [key, hsub]
    simp [String.data_append, replacePlaceholders]
  · intro a p b ha hp hres
    have key := replaceChars_around_placeholder rd a p b ha hp
    have hsub : substFor rd p.data = (placeholderOf p).data := by
      unfold substFor
      have hmk : String.mk p.data = p := rfl
      rw [hmk]
      rcases hres with h | h <;> rw [h] <;> rfl
    apply String.ext
    show replaceChars rd (a ++ placeholderOf p ++ b).data = _
    rw [key, hsub]
    simp [String.data_append, replacePlaceholders]
  · intro fields
    show Json.obj (applyTemplatingFields fields rd) = _
    rw [applyTemplatingFields_map]
  · intro items
    show Json.arr (applyTemplatingList items rd) = _
    rw [applyTemplatingList_map]

/-- C6 witness: a surrounding text with one resolvable placeholder is
substituted with the value's string representation; and the path `toString`
on an empty request object resolves through the prototype chain, so its
placeholder is substituted with the native function's string form. -/
theorem c6_witness :
    replacePlaceholders ("id: " ++ placeholderOf "who" ++ "!")
        (Json.obj [("who", Json.str "me")]) = "id: me!" ∧
    replacePlaceholders (placeholderOf "toString") (Json.obj []) =
      "function toString() \x7b [native code] \x7d" := by
  constructor
  · have h := (c6_templating_amended (Json.obj [("who", Json.str "me")])).1 "id: " "who" "!"
      (JsVal.json (Json.str "me")) (by decide) (by decide) rfl (by simp)
    rw [h]
    have hb : replacePlaceholders "!" (Json.obj [("who", Json.str "me")]) = "!" := by
      simp [replacePlaceholders, replaceChars, tryPlaceholder, dropPre, openToken]
    rw [hb]
    rfl
  · have h := (c6_templating_amended (Json.obj [])).1 "" "toString" ""
      (JsVal.hostFn "toString") (by decide) (by decide) rfl (by simp)
    have harg : ("" ++ placeholderOf "toString" ++ "" : String) = placeholderOf "toString" := by
      decide
    rw [harg] at h
    have he : replacePlaceholders "" (Json.obj []) = "" := by
      simp [replacePlaceholders, replaceChars]
    rw [he] at h
    rw [h]
    decide

end StubServer
